import Mathlib

/-!
Verification development for the Advisory Node quorum registry and
selection engine.

This file gives a shallow embedding of the registry's two storage
backends and the HTTP handler validation layer:

* `MemoryStore` embeds `storage/memory_store.go`: the volatile backend
  keeps `QuorumInfo` records in a map keyed by DID (modelled as a list
  of records) plus a peer-id index.
* `DBStore` embeds the GORM-backed durable backend
  (`DBStore` in the storage package): the relational tables are
  modelled as lists of rows, SQL `WHERE`/`ORDER BY`/`LIMIT` as
  filter/sort/take, and `LIKE '%x%'` as substring containment.
* The handler layer embeds the request validation of
  `handlers/db_quorum_handler.go` (DID format check, DID-type range
  check, negative-balance check on balance updates).

Timestamps are integers (seconds); `time.Since(t)` becomes `now - t`.
Monetary amounts (Go `float64`) are embedded as rationals; all the
concrete values appearing in the claims are exactly representable in
binary floating point, so the rational embedding agrees with the Go
arithmetic on them.  Go's `sort.Slice` is embedded as an insertion
sort over the same comparator: `sort.Slice` is unspecified on ties, and
every property proved below is either tie-independent or concerns the
`TRI` ordering, whose comparator is total on the distinct DID keys.
-/

namespace AdvisoryNode

/-- Timestamps in seconds.  `time.Since(q.LastPing)` is `now - q.lastPing`. -/
abbrev Timestamp := Int

/-- 5 minutes, the liveness window (`5*time.Minute` in the Go source). -/
def livenessWindow : Int := 5 * 60

/-- 10 minutes, the staleness threshold (`staleThreshold := 10 * time.Minute`). -/
def staleThreshold : Int := 10 * 60

/-! ### List helpers shared by both backends -/

/-- Insert `x` into `l` in front of the first element `y` with `le x y`.
Together with `sortBy` this embeds Go's `sort.Slice` with the strict
comparator `le` (the result is sorted with respect to the comparator;
`sort.Slice` is unspecified on ties, see the module comment). -/
def insertSorted (le : α → α → Bool) (x : α) : List α → List α
  | [] => [x]
  | y :: ys => if le x y then x :: y :: ys else y :: insertSorted le x ys

/-- Comparator-based insertion sort, embedding `sort.Slice`. -/
def sortBy (le : α → α → Bool) : List α → List α
  | [] => []
  | x :: xs => insertSorted le x (sortBy le xs)

/-- `charsPrefixOf p s` is true iff the list `p` is a prefix of `s`
(character-level model of `strings.HasPrefix`; all DIDs and tokens in
this development are ASCII, where Go's byte-level view and the
character-level view agree). -/
def charsPrefixOf : List Char → List Char → Bool
  | [], _ => true
  | _ :: _, [] => false
  | a :: as, b :: bs => a == b && charsPrefixOf as bs

/-- `charsContains sub s` is true iff `sub` occurs as a contiguous
substring of `s`.  This embeds the SQL pattern `LIKE '%sub%'` (no
wildcard characters occur in the patterns the source builds). -/
def charsContains (sub : List Char) : List Char → Bool
  | [] => charsPrefixOf sub []
  | c :: rest => charsPrefixOf sub (c :: rest) || charsContains sub rest

/-- String-level `LIKE '%pat%'`. -/
def strLikeContains (s pat : String) : Bool :=
  charsContains pat.data s.data

/-- String-level `LIKE '%pat'` (suffix match), used for the
`did LIKE '%<lastCharTID>'` clause of the durable backend. -/
def strLikeSuffix (s pat : String) : Bool :=
  charsPrefixOf pat.data.reverse s.data.reverse

/-- The one-byte string `string(did[len(did)-1])` used by the volatile
backend's last-character filter (`""` when `did` is empty; the branch
guarding it separately requires `len(q.DID) > 0`). -/
def lastCharString (s : String) : String :=
  match s.data.getLast? with
  | some c => String.mk [c]
  | none => ""

/-! ### Entity model (`models` package) -/

/-- `models.QuorumInfo`: one registered quorum node of the volatile
backend. -/
structure QuorumInfo where
  did : String
  peerId : String
  balance : ℚ
  didType : Int
  available : Bool
  lastPing : Timestamp
  assignmentCount : Int
  lastAssignment : Timestamp
  registrationTime : Timestamp
  supportedTokens : List String
deriving DecidableEq

/-- `models.QuorumData`: the `(type, "PeerID.DID")` pair returned to the
caller by a selection. -/
structure QuorumData where
  type : Int
  address : String
deriving DecidableEq

/-- `models.QuorumRegistrationRequest` (after JSON binding). -/
structure QuorumRegistrationRequest where
  did : String
  peerId : String
  balance : ℚ
  didType : Int
  supportedTokens : List String
deriving DecidableEq

/-- The structured content of the `not enough ... quorums` error both
backends return from `GetAvailableQuorums`: the number of candidates
found, the number needed, and the computed required balance (the Go
code carries these in a formatted string). -/
structure InsufficientCandidates where
  found : Nat
  needed : Nat
  requiredBalance : ℚ
deriving DecidableEq

/-- `models.HealthStatus` (the fields the core computes). -/
structure HealthStatus where
  totalQuorums : Nat
  availableQuorums : Nat
deriving DecidableEq

/-! ### Volatile backend: `storage/memory_store.go` -/

/-- `storage.MemoryStore`: the Go map `quorums` (keyed by DID) is
modelled as a list of records, `peerIndex` as an association list.
Reachable states hold at most one record per DID (registration is
upsert-by-DID). -/
structure MemoryStore where
  quorums : List QuorumInfo
  peerIndex : List (String × String)
deriving DecidableEq

/-- `find?`-view of the Go map lookup `ms.quorums[did]`. -/
def MemoryStore.findQuorum (ms : MemoryStore) (did : String) : Option QuorumInfo :=
  ms.quorums.find? (fun q => q.did == did)

/-- Go map assignment `ms.peerIndex[pid] = did`. -/
def setPeerIndex (idx : List (String × String)) (pid did : String) : List (String × String) :=
  (pid, did) :: idx.filter (fun e => e.1 ≠ pid)

/-- `MemoryStore.RegisterQuorum` (memory_store.go:31-67): upsert by DID.
An existing record keeps `assignmentCount`, `lastAssignment` and
`registrationTime` and takes every other field from the request
(`available` is forced to `true`, `lastPing` to now); a new record
starts with `assignmentCount = 0` and `registrationTime = now`. -/
def MemoryStore.RegisterQuorum (ms : MemoryStore) (req : QuorumRegistrationRequest)
    (now : Timestamp) : MemoryStore :=
  match ms.findQuorum req.did with
  | some _ =>
      { quorums := ms.quorums.map fun q =>
          if q.did == req.did then
            { q with peerId := req.peerId, balance := req.balance, didType := req.didType,
                     lastPing := now, available := true, supportedTokens := req.supportedTokens }
          else q,
        peerIndex := setPeerIndex ms.peerIndex req.peerId req.did }
  | none =>
      { quorums := ms.quorums ++
          [{ did := req.did, peerId := req.peerId, balance := req.balance,
             didType := req.didType, available := true, lastPing := now,
             assignmentCount := 0, lastAssignment := 0, registrationTime := now,
             supportedTokens := req.supportedTokens }],
        peerIndex := setPeerIndex ms.peerIndex req.peerId req.did }

/-- `MemoryStore.ConfirmAvailability` (memory_store.go:70-83): `none`
models the `quorum not found` error. -/
def MemoryStore.ConfirmAvailability (ms : MemoryStore) (did : String)
    (now : Timestamp) : Option MemoryStore :=
  match ms.findQuorum did with
  | none => none
  | some _ =>
      some { ms with quorums := ms.quorums.map fun q =>
        if q.did == did then { q with available := true, lastPing := now } else q }

/-- The `count` defaulting both backends perform first
(`if count <= 0 { count = 7 }`). -/
def effCount (count0 : Int) : Int :=
  if count0 ≤ 0 then 7 else count0

/-- The `supportsToken` closure of `MemoryStore.GetAvailableQuorums`
(memory_store.go:98-109): an empty declared token list means the node
supports only the default token `RBT` (or no filtering at all). -/
def supportsToken (supportedTokens : List String) (token : String) : Bool :=
  if supportedTokens.isEmpty then token == "" || token == "RBT"
  else supportedTokens.contains token

/-- The liveness test used by selection and the health summary
(memory_store.go:115, 201): available and pinged within the last 5
minutes. -/
def memLive (now : Timestamp) (q : QuorumInfo) : Bool :=
  q.available && (now - q.lastPing < livenessWindow)

/-- The full candidate filter of `MemoryStore.GetAvailableQuorums`
(memory_store.go:112-130): live, sufficient balance, token support when
a token filter is set, and the last-character filter when set and the
token is not `TRI`. -/
def memPassesFilter (now : Timestamp) (requiredBalance : ℚ) (ftName lastCharTID : String)
    (q : QuorumInfo) : Bool :=
  memLive now q && (q.balance ≥ requiredBalance)
    && (ftName == "" || supportsToken q.supportedTokens ftName)
    && (if lastCharTID != "" && ftName != "TRI"
        then q.did != "" && lastCharString q.did == lastCharTID
        else true)

/-- The `TRI` comparator (memory_store.go:140-142): ascending DID. -/
def triLess (a b : QuorumInfo) : Bool :=
  a.did < b.did

/-- The fair-rotation comparator (memory_store.go:146-151): ascending
assignment count, ties broken by oldest last assignment. -/
def loadLess (a b : QuorumInfo) : Bool :=
  if a.assignmentCount == b.assignmentCount then a.lastAssignment < b.lastAssignment
  else a.assignmentCount < b.assignmentCount

/-- Bump applied to each selected record (memory_store.go:160-161). -/
def bumpAssignment (now : Timestamp) (q : QuorumInfo) : QuorumInfo :=
  { q with assignmentCount := q.assignmentCount + 1, lastAssignment := now }

/-- `MemoryStore.GetAvailableQuorums` (memory_store.go:86-171).
Returns the selection outcome together with the post-call store (the Go
method mutates the records in place). -/
def MemoryStore.GetAvailableQuorums (ms : MemoryStore) (count0 : Int) (lastCharTID : String)
    (transactionAmount : ℚ) (ftName : String) (now : Timestamp) :
    Except InsufficientCandidates (List QuorumData) × MemoryStore :=
  let count : Int := effCount count0
  let requiredBalance : ℚ := transactionAmount / (count : ℚ)
  let availableQuorums := ms.quorums.filter (memPassesFilter now requiredBalance ftName lastCharTID)
  if availableQuorums.length < count.toNat then
    (Except.error ⟨availableQuorums.length, count.toNat, requiredBalance⟩, ms)
  else
    let sorted := sortBy (if ftName == "TRI" then triLess else loadLess) availableQuorums
    let chosenList := sorted.take count.toNat
    let chosenDids := chosenList.map (fun q => q.did)
    (Except.ok (chosenList.map fun q => { type := 2, address := q.peerId ++ "." ++ q.did }),
     { ms with quorums := ms.quorums.map fun q =>
         if chosenDids.contains q.did then bumpAssignment now q else q })

/-- `MemoryStore.UnregisterQuorum` (memory_store.go:174-190). -/
def MemoryStore.UnregisterQuorum (ms : MemoryStore) (did : String) : Option MemoryStore :=
  match ms.findQuorum did with
  | none => none
  | some q =>
      some { quorums := ms.quorums.filter (fun r => r.did ≠ did),
             peerIndex := ms.peerIndex.filter (fun e => e.1 ≠ q.peerId) }

/-- `MemoryStore.GetHealthStatus` (memory_store.go:193-213). -/
def MemoryStore.GetHealthStatus (ms : MemoryStore) (now : Timestamp) : HealthStatus :=
  { totalQuorums := ms.quorums.length,
    availableQuorums := (ms.quorums.filter (memLive now)).length }

/-- `MemoryStore.UpdateHeartbeat` (memory_store.go:216-227): refreshes
`lastPing` only; `none` models the `quorum not found` error. -/
def MemoryStore.UpdateHeartbeat (ms : MemoryStore) (did : String)
    (now : Timestamp) : Option MemoryStore :=
  match ms.findQuorum did with
  | none => none
  | some _ =>
      some { ms with quorums := ms.quorums.map fun q =>
        if q.did == did then { q with lastPing := now } else q }

/-- The staleness test of the volatile sweeper (memory_store.go:238). -/
def memStale (now : Timestamp) (q : QuorumInfo) : Bool :=
  now - q.lastPing > staleThreshold

/-- `MemoryStore.CleanupStaleQuorums` (memory_store.go:230-246): the
volatile sweeper DELETES every stale record (and its peer-index entry)
and returns the number removed. -/
def MemoryStore.CleanupStaleQuorums (ms : MemoryStore) (now : Timestamp) :
    Nat × MemoryStore :=
  let stale := ms.quorums.filter (memStale now)
  (stale.length,
   { quorums := ms.quorums.filter (fun q => ¬ memStale now q),
     peerIndex := ms.peerIndex.filter (fun e => ¬ (stale.map (fun q => q.peerId)).contains e.1) })

/-- `MemoryStore.GetQuorumByDID` (memory_store.go:249-259). -/
def MemoryStore.GetQuorumByDID (ms : MemoryStore) (did : String) : Option QuorumInfo :=
  ms.findQuorum did

/-! ### Durable backend: `DBStore` (GORM-backed)

The `quorums` table rows (`QuorumDB`) store the declared token list as
the JSON text produced by `json.Marshal` of a `[]string`
(`"[\"RBT\",\"TRI\"]"`; an empty slice serializes to `"[]"`, a nil slice
to `"null"`).  SQL reads and writes through the GORM handle are
modelled on the table contents; a bare `UPDATE`/`DELETE` that matches
no row is a success with zero rows affected (GORM only reports
`record not found` from `First`). -/

/-- A row of the `quorums` table. -/
structure QuorumDB where
  did : String
  peerId : String
  balance : ℚ
  didType : Int
  available : Bool
  lastPing : Timestamp
  assignmentCount : Int
  lastAssignment : Timestamp
  registrationTime : Timestamp
  supportedTokens : String
deriving DecidableEq

/-- A row of the `balance_history` table (append-only). -/
structure BalanceHistory where
  quorumDID : String
  oldBalance : ℚ
  newBalance : ℚ
  changeReason : String
  timestamp : Timestamp
deriving DecidableEq

/-- A row of the `transaction_history` table (append-only). -/
structure TransactionHistoryRow where
  transactionAmount : ℚ
  quorumDIDs : List String
  requiredBalance : ℚ
  timestamp : Timestamp
deriving DecidableEq

/-- `storage.DBStore`: the three tables reachable through the GORM
handle, each modelled as a list of rows in insertion order. -/
structure DBStore where
  quorums : List QuorumDB
  balanceHistory : List BalanceHistory
  txHistory : List TransactionHistoryRow
deriving DecidableEq

/-- `json.Marshal` of a `[]string` (tokens are plain alphanumeric, so
no JSON escaping arises; a nil slice would serialize to `"null"`, which
behaves like `"[]"` under every `LIKE` clause below). -/
def serializeTokens (ts : List String) : String :=
  "[" ++ String.intercalate "," (ts.map (fun t => "\"" ++ t ++ "\"")) ++ "]"

/-- `SELECT ... WHERE did = ?` through `First`. -/
def DBStore.findRow (ds : DBStore) (did : String) : Option QuorumDB :=
  ds.quorums.find? (fun q => q.did == did)

/-- `DBStore.RegisterQuorum` (part_007:79-130): upsert by DID; an
update touches `peer_id, balance, did_type, available, last_ping,
supported_tokens` and appends a `BalanceHistory` row when the balance
changed; an insert starts with `assignment_count = 0` and sets
`registration_time = now`. -/
def DBStore.RegisterQuorum (ds : DBStore) (req : QuorumRegistrationRequest)
    (now : Timestamp) : DBStore :=
  match ds.findRow req.did with
  | some existing =>
      { ds with
        quorums := ds.quorums.map fun q =>
          if q.did == req.did then
            { q with peerId := req.peerId, balance := req.balance, didType := req.didType,
                     available := true, lastPing := now,
                     supportedTokens := serializeTokens req.supportedTokens }
          else q,
        balanceHistory :=
          if existing.balance ≠ req.balance then
            ds.balanceHistory ++
              [{ quorumDID := req.did, oldBalance := existing.balance,
                 newBalance := req.balance, changeReason := "Registration update",
                 timestamp := now }]
          else ds.balanceHistory }
  | none =>
      { ds with quorums := ds.quorums ++
          [{ did := req.did, peerId := req.peerId, balance := req.balance,
             didType := req.didType, available := true, lastPing := now,
             assignmentCount := 0, lastAssignment := 0, registrationTime := now,
             supportedTokens := serializeTokens req.supportedTokens }] }

/-- The token clause of the durable selection query (part_007:147-162):
`LIKE '%"TRI"%'` for `TRI`; `LIKE '%"<ft>"%' OR supported_tokens = ''
OR supported_tokens IS NULL` for other non-empty filters; and
`LIKE '%"RBT"%' OR supported_tokens = '' OR supported_tokens IS NULL`
when no filter is given.  The column is a text column that the code
always writes, so `IS NULL` holds for no reachable row and the clause
is embedded as the `= ''` test alone. -/
def dbTokenClause (ftName : String) (supportedTokens : String) : Bool :=
  if ftName == "" then
    strLikeContains supportedTokens "\"RBT\"" || supportedTokens == ""
  else if ftName == "TRI" then
    strLikeContains supportedTokens "\"TRI\""
  else
    strLikeContains supportedTokens ("\"" ++ ftName ++ "\"") || supportedTokens == ""

/-- The liveness part of the durable queries
(`available = true AND last_ping > now - 5min`, part_007:143-144 and
344-345). -/
def dbLive (now : Timestamp) (q : QuorumDB) : Bool :=
  q.available && (q.lastPing > now - livenessWindow)

/-- The full `WHERE` clause of `DBStore.GetAvailableQuorums`
(part_007:142-167). -/
def dbPassesFilter (now : Timestamp) (requiredBalance : ℚ) (ftName lastCharTID : String)
    (q : QuorumDB) : Bool :=
  dbLive now q && (q.balance ≥ requiredBalance)
    && dbTokenClause ftName q.supportedTokens
    && (if lastCharTID != "" && ftName != "TRI"
        then strLikeSuffix q.did lastCharTID
        else true)

/-- `ORDER BY did ASC` (part_007:154). -/
def dbTriLess (a b : QuorumDB) : Bool :=
  a.did < b.did

/-- `ORDER BY assignment_count ASC, last_assignment ASC` (part_007:178). -/
def dbLoadLess (a b : QuorumDB) : Bool :=
  if a.assignmentCount == b.assignmentCount then a.lastAssignment < b.lastAssignment
  else a.assignmentCount < b.assignmentCount

/-- The per-row update of a successful durable selection
(part_007:198-201). -/
def dbBumpAssignment (now : Timestamp) (q : QuorumDB) : QuorumDB :=
  { q with assignmentCount := q.assignmentCount + 1, lastAssignment := now }

/-- `DBStore.GetAvailableQuorums` (part_007:133-223): one filtered,
ordered read limited to `count` rows; if fewer than `count` rows come
back the call fails (`found` is the number of rows the limited query
returned) and nothing is written; otherwise each chosen row's
assignment metadata is updated and one `transaction_history` row is
appended. -/
def DBStore.GetAvailableQuorums (ds : DBStore) (count0 : Int) (lastCharTID : String)
    (transactionAmount : ℚ) (ftName : String) (now : Timestamp) :
    Except InsufficientCandidates (List QuorumData) × DBStore :=
  let count : Int := effCount count0
  let requiredBalance : ℚ := transactionAmount / (count : ℚ)
  let rows :=
    (sortBy (if ftName == "TRI" then dbTriLess else dbLoadLess)
      (ds.quorums.filter (dbPassesFilter now requiredBalance ftName lastCharTID))).take count.toNat
  if rows.length < count.toNat then
    (Except.error ⟨rows.length, count.toNat, requiredBalance⟩, ds)
  else
    let chosenDids := rows.map (fun q => q.did)
    (Except.ok (rows.map fun q => { type := 2, address := q.peerId ++ "." ++ q.did }),
     { ds with
       quorums := ds.quorums.map fun q =>
         if chosenDids.contains q.did then dbBumpAssignment now q else q,
       txHistory := ds.txHistory ++
         [{ transactionAmount := transactionAmount, quorumDIDs := chosenDids,
            requiredBalance := requiredBalance, timestamp := now }] })

/-- `DBStore.UpdateQuorumBalance` (part_007:226-246): `none` models the
`quorum not found` error from `First`; a change appends a
`BalanceHistory` row. -/
def DBStore.UpdateQuorumBalance (ds : DBStore) (did : String) (newBalance : ℚ)
    (now : Timestamp) : Option DBStore :=
  match ds.findRow did with
  | none => none
  | some quorum =>
      some { ds with
        quorums := ds.quorums.map fun q =>
          if q.did == did then { q with balance := newBalance } else q,
        balanceHistory :=
          if quorum.balance ≠ newBalance then
            ds.balanceHistory ++
              [{ quorumDID := did, oldBalance := quorum.balance, newBalance := newBalance,
                 changeReason := "Balance update", timestamp := now }]
          else ds.balanceHistory }

/-- `DBStore.ConfirmAvailability` (part_007:249-263): checks existence
with `First` (hence can fail), then sets `available` and `last_ping`. -/
def DBStore.ConfirmAvailability (ds : DBStore) (did : String)
    (now : Timestamp) : Option DBStore :=
  match ds.findRow did with
  | none => none
  | some _ =>
      some { ds with quorums := ds.quorums.map fun q =>
        if q.did == did then { q with available := true, lastPing := now } else q }

/-- `DBStore.UpdateHeartbeat` (part_007:266-270): a bare
`UPDATE quorums SET last_ping = now WHERE did = ?`.  There is no
existence check: when no row matches, the statement succeeds with zero
rows affected, so this operation is total (it can only fail with a
storage error, which the embedding does not model). -/
def DBStore.UpdateHeartbeat (ds : DBStore) (did : String) (now : Timestamp) : DBStore :=
  { ds with quorums := ds.quorums.map fun q =>
      if q.did == did then { q with lastPing := now } else q }

/-- `DBStore.UnregisterQuorum` (part_007:273-275): a bare `DELETE`,
likewise total. -/
def DBStore.UnregisterQuorum (ds : DBStore) (did : String) : DBStore :=
  { ds with quorums := ds.quorums.filter (fun q => q.did ≠ did) }

/-- `DBStore.GetQuorumByDID` (part_007:278-303): returns the row (the
Go code then converts it to `models.QuorumInfo`, which never fails once
the row exists). -/
def DBStore.GetQuorumByDID (ds : DBStore) (did : String) : Option QuorumDB :=
  ds.findRow did

/-- `DBStore.GetHealthStatus` (part_007:338-354). -/
def DBStore.GetHealthStatus (ds : DBStore) (now : Timestamp) : HealthStatus :=
  { totalQuorums := ds.quorums.length,
    availableQuorums := (ds.quorums.filter (dbLive now)).length }

/-- The staleness test of the durable sweeper
(`last_ping < now - 10min`, part_007:361). -/
def dbStale (now : Timestamp) (q : QuorumDB) : Bool :=
  q.lastPing < now - staleThreshold

/-- `DBStore.CleanupStaleQuorums` (part_007:357-365): one `UPDATE`
setting `available = false` on every stale row; returns the number of
rows affected.  No row is deleted. -/
def DBStore.CleanupStaleQuorums (ds : DBStore) (now : Timestamp) : Nat × DBStore :=
  ((ds.quorums.filter (dbStale now)).length,
   { ds with quorums := ds.quorums.map fun q =>
       if dbStale now q then { q with available := false } else q })

/-! ### Handler layer: `handlers/db_quorum_handler.go`

Only the validation steps that run after JSON binding are embedded;
`gin` transport and binding errors are outside the model. -/

/-- The HTTP outcome kinds the handlers produce. -/
inductive ApiStatus where
  | ok
  | badRequest
  | notFound
  | serviceUnavailable
deriving DecidableEq

/-- `isValidDID` (db_quorum_handler.go:342-351): `bafybmi` prefix,
exactly 59 characters, alphanumeric. -/
def isValidDID (did : String) : Bool :=
  charsPrefixOf "bafybmi".data did.data && did.data.length == 59
    && did.data.all (fun c => c.isAlphanum)

/-- `DBQuorumHandler.RegisterQuorum` (db_quorum_handler.go:28-70):
validates the DID format and the DID type range 0..4, then registers.
The request balance is NOT validated. -/
def handleRegisterQuorum (ds : DBStore) (req : QuorumRegistrationRequest)
    (now : Timestamp) : ApiStatus × DBStore :=
  if ¬ isValidDID req.did then (ApiStatus.badRequest, ds)
  else if req.didType < 0 ∨ req.didType > 4 then (ApiStatus.badRequest, ds)
  else (ApiStatus.ok, ds.RegisterQuorum req now)

/-- `DBQuorumHandler.UpdateQuorumBalance` (db_quorum_handler.go:148-190):
validates the DID format and rejects a negative balance before touching
the store. -/
def handleUpdateQuorumBalance (ds : DBStore) (did : String) (balance : ℚ)
    (now : Timestamp) : ApiStatus × DBStore :=
  if ¬ isValidDID did then (ApiStatus.badRequest, ds)
  else if balance < 0 then (ApiStatus.badRequest, ds)
  else
    match ds.UpdateQuorumBalance did balance now with
    | none => (ApiStatus.notFound, ds)
    | some ds9 => (ApiStatus.ok, ds9)

/-- `DBQuorumHandler.Heartbeat` (db_quorum_handler.go:259-292): after
the format check it calls `DBStore.UpdateHeartbeat`, which never
reports a missing row, so the handler answers `ok` for every
well-formed DID. -/
def handleHeartbeat (ds : DBStore) (did : String) (now : Timestamp) : ApiStatus × DBStore :=
  if ¬ isValidDID did then (ApiStatus.badRequest, ds)
  else (ApiStatus.ok, ds.UpdateHeartbeat did now)

/-- `DBQuorumHandler.GetAvailableQuorums` (db_quorum_handler.go:73-145):
defaults `count` to 7 when not positive, rejects a non-positive
transaction amount, parses the `type` query parameter (defaulting 0 to
2) WITHOUT passing it to the store, and maps a store error to a 503. -/
def handleGetAvailableQuorums (ds : DBStore) (count0 : Int) (transactionAmount : ℚ)
    (lastCharTID ftName : String) (typeParam : Int) (now : Timestamp) :
    ApiStatus × Option (List QuorumData) × DBStore :=
  let count : Int := if count0 ≤ 0 then 7 else count0
  if transactionAmount ≤ 0 then (ApiStatus.badRequest, none, ds)
  else
    let _reqType : Int := if typeParam == 0 then 2 else typeParam
    match ds.GetAvailableQuorums count lastCharTID transactionAmount ftName now with
    | (Except.error _, ds9) => (ApiStatus.serviceUnavailable, none, ds9)
    | (Except.ok quorums, ds9) => (ApiStatus.ok, some quorums, ds9)

deriving instance DecidableEq for Except

/-! ### Named selection stages

The ordered prefix that a successful selection returns and bumps, as a
standalone definition (it is definitionally the list the corresponding
`GetAvailableQuorums` builds internally). -/

/-- The chosen records of a successful volatile selection: the first
`count` candidates in the selected ordering. -/
def MemoryStore.chosenFor (ms : MemoryStore) (count0 : Int) (lastCharTID : String)
    (transactionAmount : ℚ) (ftName : String) (now : Timestamp) : List QuorumInfo :=
  let count : Int := effCount count0
  let requiredBalance : ℚ := transactionAmount / (count : ℚ)
  (sortBy (if ftName == "TRI" then triLess else loadLess)
    (ms.quorums.filter (memPassesFilter now requiredBalance ftName lastCharTID))).take count.toNat

/-- The filtered candidate pool of a volatile selection (the
`availableQuorums` list of memory_store.go:112-130). -/
def MemoryStore.selectionPool (ms : MemoryStore) (count0 : Int) (lastCharTID : String)
    (transactionAmount : ℚ) (ftName : String) (now : Timestamp) : List QuorumInfo :=
  let count : Int := effCount count0
  let requiredBalance : ℚ := transactionAmount / (count : ℚ)
  ms.quorums.filter (memPassesFilter now requiredBalance ftName lastCharTID)

/-- The rows the limited durable selection query returns. -/
def DBStore.rowsFor (ds : DBStore) (count0 : Int) (lastCharTID : String)
    (transactionAmount : ℚ) (ftName : String) (now : Timestamp) : List QuorumDB :=
  let count : Int := effCount count0
  let requiredBalance : ℚ := transactionAmount / (count : ℚ)
  (sortBy (if ftName == "TRI" then dbTriLess else dbLoadLess)
    (ds.quorums.filter (dbPassesFilter now requiredBalance ftName lastCharTID))).take count.toNat

/-! ### Concrete fixtures used by witnesses and counterexamples -/

/-- A well-formed DID: `bafybmi` followed by 52 alphanumeric characters. -/
def exDID : String := "bafybmi" ++ String.mk (List.replicate 52 'a')

/-- A volatile-store record with the given DID and balance, registered
with no declared tokens, fresh ping at time 0. -/
def mkQ (d : String) (b : ℚ) : QuorumInfo :=
  { did := d, peerId := "p" ++ d, balance := b, didType := 0, available := true,
    lastPing := 0, assignmentCount := 0, lastAssignment := 0, registrationTime := 0,
    supportedTokens := [] }

/-- A durable-store row with the given DID, balance and declared tokens,
fresh ping at time 0. -/
def mkRow (d : String) (b : ℚ) (toks : List String) : QuorumDB :=
  { did := d, peerId := "p" ++ d, balance := b, didType := 0, available := true,
    lastPing := 0, assignmentCount := 0, lastAssignment := 0, registrationTime := 0,
    supportedTokens := serializeTokens toks }

/-- The spec's example population: five nodes with balances 10..50. -/
def memEx5 : MemoryStore :=
  { quorums := [mkQ "a" 10, mkQ "b" 20, mkQ "c" 30, mkQ "d" 40, mkQ "e" 50],
    peerIndex := [] }

/-- The same example population in the durable backend, with declared
`RBT` support. -/
def dbEx5 : DBStore :=
  { quorums := [mkRow "a" 10 ["RBT"], mkRow "b" 20 ["RBT"], mkRow "c" 30 ["RBT"],
                mkRow "d" 40 ["RBT"], mkRow "e" 50 ["RBT"]],
    balanceHistory := [], txHistory := [] }

/-- A durable store holding one live, well-funded record registered
with an empty token list. -/
def dbEmptyTok : DBStore :=
  { quorums := [mkRow "a" 100 []], balanceHistory := [], txHistory := [] }

/-- A volatile store holding one record whose last ping is at time 0. -/
def memOne : MemoryStore :=
  { quorums := [mkQ "a" 10], peerIndex := [("pa", "a")] }

/-- The empty durable store. -/
def dbEmpty : DBStore := { quorums := [], balanceHistory := [], txHistory := [] }

/-- A registration request carrying a negative balance. -/
def regNeg : QuorumRegistrationRequest :=
  { did := exDID, peerId := "peer1", balance := -5, didType := 0, supportedTokens := [] }

/-- Three TRI-capable records inserted out of DID order, with unequal
assignment counts. -/
def memTri3 : MemoryStore :=
  { quorums := [{ mkQ "c" 50 with supportedTokens := ["TRI"], assignmentCount := 0 },
                { mkQ "a" 50 with supportedTokens := ["TRI"], assignmentCount := 9 },
                { mkQ "b" 50 with supportedTokens := ["TRI"], assignmentCount := 5 }],
    peerIndex := [] }

/-- The durable counterpart of `memTri3`. -/
def dbTri3 : DBStore :=
  { quorums := [{ mkRow "c" 50 ["TRI"] with assignmentCount := 0 },
                { mkRow "a" 50 ["TRI"] with assignmentCount := 9 },
                { mkRow "b" 50 ["TRI"] with assignmentCount := 5 }],
    balanceHistory := [], txHistory := [] }

/-! ### Generic list lemmas -/

theorem insertSorted_perm (le : α → α → Bool) (x : α) :
    ∀ l : List α, (insertSorted le x l).Perm (x :: l)
  | [] => List.Perm.refl _
  | y :: ys => by
      unfold insertSorted
      by_cases h : le x y
      · simp [h]
      · simp only [h, if_false]
        exact ((insertSorted_perm le x ys).cons y).trans (List.Perm.swap x y ys)

theorem sortBy_perm (le : α → α → Bool) :
    ∀ l : List α, (sortBy le l).Perm l
  | [] => List.Perm.refl _
  | x :: xs =>
      (insertSorted_perm le x (sortBy le xs)).trans ((sortBy_perm le xs).cons x)

theorem length_sortBy (le : α → α → Bool) (l : List α) :
    (sortBy le l).length = l.length :=
  (sortBy_perm le l).length_eq

theorem mem_sortBy {le : α → α → Bool} {l : List α} {a : α} :
    a ∈ sortBy le l ↔ a ∈ l :=
  (sortBy_perm le l).mem_iff

theorem map_insertSorted (f : α → β) {le1 : α → α → Bool} {le2 : β → β → Bool}
    (hle : ∀ a b, le2 (f a) (f b) = le1 a b) (x : α) :
    ∀ l : List α, (insertSorted le1 x l).map f = insertSorted le2 (f x) (l.map f)
  | [] => rfl
  | y :: ys => by
      show (if le1 x y then x :: y :: ys else y :: insertSorted le1 x ys).map f =
        if le2 (f x) (f y) then f x :: f y :: ys.map f
        else f y :: insertSorted le2 (f x) (ys.map f)
      rw [hle]
      by_cases h : le1 x y
      · simp [h]
      · simp [h, map_insertSorted f hle x ys]

theorem map_sortBy (f : α → β) {le1 : α → α → Bool} {le2 : β → β → Bool}
    (hle : ∀ a b, le2 (f a) (f b) = le1 a b) :
    ∀ l : List α, (sortBy le1 l).map f = sortBy le2 (l.map f)
  | [] => rfl
  | x :: xs => by
      rw [List.map_cons]
      show (insertSorted le1 x (sortBy le1 xs)).map f =
        insertSorted le2 (f x) (sortBy le2 (xs.map f))
      rw [map_insertSorted f hle, map_sortBy f hle xs]

theorem head?_insertSorted (le : α → α → Bool) (x : α) :
    ∀ l : List α, (insertSorted le x l).head? = some x ∨
      (insertSorted le x l).head? = l.head?
  | [] => Or.inl rfl
  | y :: ys => by
      by_cases h : le x y
      · left
        show (if le x y then x :: y :: ys else y :: insertSorted le x ys).head? = some x
        rw [if_pos h]
        rfl
      · right
        show (if le x y then x :: y :: ys else y :: insertSorted le x ys).head? = _
        rw [if_neg h]
        rfl

theorem chain_insertSorted {le : α → α → Bool}
    (asym : ∀ a b, le a b = true → le b a = false) (x : α) :
    ∀ l : List α, List.Chain' (fun a b => le b a = false) l →
      List.Chain' (fun a b => le b a = false) (insertSorted le x l)
  | [], _ => List.chain'_singleton x
  | y :: ys, hch => by
      show List.Chain' _ (if le x y then x :: y :: ys else y :: insertSorted le x ys)
      by_cases h : le x y
      · rw [if_pos h]
        exact List.chain'_cons.mpr ⟨asym x y h, hch⟩
      · rw [if_neg h]
        rcases List.chain'_cons'.mp hch with ⟨hhead, htail⟩
        refine List.chain'_cons'.mpr ⟨?_, chain_insertSorted asym x ys htail⟩
        intro z hz
        rcases head?_insertSorted le x ys with hh | hh
        · rw [hh] at hz
          simp only [Option.mem_def, Option.some_inj] at hz
          subst hz
          simpa using h
        · rw [hh] at hz
          exact hhead z hz

theorem chain_sortBy {le : α → α → Bool}
    (asym : ∀ a b, le a b = true → le b a = false) :
    ∀ l : List α, List.Chain' (fun a b => le b a = false) (sortBy le l)
  | [] => List.chain'_nil
  | x :: xs => chain_insertSorted asym x (sortBy le xs) (chain_sortBy asym xs)

theorem filter_map_comm (f : α → α) (p : α → Bool) (h : ∀ x, p (f x) = p x) :
    ∀ l : List α, (l.map f).filter p = (l.filter p).map f
  | [] => rfl
  | x :: xs => by
      simp only [List.map_cons, List.filter_cons, h x]
      by_cases hx : p x
      · simp [hx, filter_map_comm f p h xs]
      · simp [hx, filter_map_comm f p h xs]

theorem map_eq_self {f : α → α} :
    ∀ {l : List α}, (∀ x ∈ l, f x = x) → l.map f = l
  | [], _ => rfl
  | x :: xs, h => by
      simp only [List.map_cons, h x (by simp)]
      rw [map_eq_self (fun y hy => h y (by simp [hy]))]

theorem find?_map_pres {p : α → Bool} (f : α → α) (hp : ∀ x, p (f x) = p x) :
    ∀ {l : List α} {q : α}, l.find? p = some q → (l.map f).find? p = some (f q)
  | [], _, h => by simp at h
  | x :: xs, q, h => by
      by_cases hx : p x = true
      · simp only [List.find?_cons_of_pos _ hx, Option.some_inj] at h
        subst h
        rw [List.map_cons]
        exact List.find?_cons_of_pos _ (by rw [hp x]; exact hx)
      · rw [List.find?_cons_of_neg _ hx] at h
        rw [List.map_cons, List.find?_cons_of_neg _ (by rw [hp x]; exact hx)]
        exact find?_map_pres f hp h

theorem find?_map_pres_none {p : α → Bool} (f : α → α) (hp : ∀ x, p (f x) = p x)
    {l : List α} (h : l.find? p = none) : (l.map f).find? p = none := by
  rw [List.find?_eq_none] at h ⊢
  intro y hy
  rcases List.mem_map.mp hy with ⟨x, hx, rfl⟩
  rw [hp x]
  exact h x hx

theorem find?_append_none {p : α → Bool} {l1 l2 : List α}
    (h : l1.find? p = none) : (l1 ++ l2).find? p = l2.find? p := by
  induction l1 with
  | nil => simp
  | cons x xs ih =>
      by_cases hx : p x
      · rw [List.find?_cons_of_pos _ hx] at h; exact absurd h (by simp)
      · rw [List.find?_cons_of_neg _ hx] at h
        rw [List.cons_append, List.find?_cons_of_neg _ hx]
        exact ih h

/-! ### Unfolding equations for the two selection operations -/

/-- `MemoryStore.GetAvailableQuorums` in terms of the named stages. -/
theorem memSelect_eq (ms : MemoryStore) (count0 : Int) (lc : String) (ta : ℚ)
    (ft : String) (now : Timestamp) :
    ms.GetAvailableQuorums count0 lc ta ft now =
      (if (ms.selectionPool count0 lc ta ft now).length < (effCount count0).toNat
       then (Except.error ⟨(ms.selectionPool count0 lc ta ft now).length,
              (effCount count0).toNat, ta / ((effCount count0 : Int) : ℚ)⟩, ms)
       else (Except.ok ((ms.chosenFor count0 lc ta ft now).map
                fun q => { type := 2, address := q.peerId ++ "." ++ q.did }),
             { ms with quorums := ms.quorums.map fun q =>
                 if ((ms.chosenFor count0 lc ta ft now).map (fun r => r.did)).contains q.did
                 then bumpAssignment now q else q })) := rfl

/-- `DBStore.GetAvailableQuorums` in terms of the named stages. -/
theorem dbSelect_eq (ds : DBStore) (count0 : Int) (lc : String) (ta : ℚ)
    (ft : String) (now : Timestamp) :
    ds.GetAvailableQuorums count0 lc ta ft now =
      (if (ds.rowsFor count0 lc ta ft now).length < (effCount count0).toNat
       then (Except.error ⟨(ds.rowsFor count0 lc ta ft now).length,
              (effCount count0).toNat, ta / ((effCount count0 : Int) : ℚ)⟩, ds)
       else (Except.ok ((ds.rowsFor count0 lc ta ft now).map
                fun q => { type := 2, address := q.peerId ++ "." ++ q.did }),
             { ds with
               quorums := ds.quorums.map fun q =>
                 if ((ds.rowsFor count0 lc ta ft now).map (fun r => r.did)).contains q.did
                 then dbBumpAssignment now q else q,
               txHistory := ds.txHistory ++
                 [{ transactionAmount := ta,
                    quorumDIDs := (ds.rowsFor count0 lc ta ft now).map (fun r => r.did),
                    requiredBalance := ta / ((effCount count0 : Int) : ℚ),
                    timestamp := now }] })) := rfl

/-! ### Projection lemmas: a successful selection only mutates the
assignment metadata, which the `TRI` ordering and the candidate filter
never read. -/

/-- Erase the assignment metadata (the only record fields a successful
selection mutates). -/
def projInfo (q : QuorumInfo) : QuorumInfo :=
  { q with assignmentCount := 0, lastAssignment := 0 }

/-- Row-level analogue of `projInfo`. -/
def projRow (q : QuorumDB) : QuorumDB :=
  { q with assignmentCount := 0, lastAssignment := 0 }

theorem memSelect_proj_preserved (ms : MemoryStore) (count0 : Int) (lc : String)
    (ta : ℚ) (ft : String) (now : Timestamp) :
    ((ms.GetAvailableQuorums count0 lc ta ft now).2).quorums.map projInfo
      = ms.quorums.map projInfo := by
  rw [memSelect_eq]
  by_cases h : (ms.selectionPool count0 lc ta ft now).length < (effCount count0).toNat
  · rw [if_pos h]
  · rw [if_neg h]
    show (ms.quorums.map _).map projInfo = _
    rw [List.map_map]
    apply List.map_congr_left
    intro q _
    simp only [Function.comp_apply]
    by_cases hq : ((ms.chosenFor count0 lc ta ft now).map (fun r => r.did)).contains q.did
    · rw [if_pos hq]
      rfl
    · rw [if_neg hq]

theorem dbSelect_proj_preserved (ds : DBStore) (count0 : Int) (lc : String)
    (ta : ℚ) (ft : String) (now : Timestamp) :
    ((ds.GetAvailableQuorums count0 lc ta ft now).2).quorums.map projRow
      = ds.quorums.map projRow := by
  rw [dbSelect_eq]
  by_cases h : (ds.rowsFor count0 lc ta ft now).length < (effCount count0).toNat
  · rw [if_pos h]
  · rw [if_neg h]
    show (ds.quorums.map _).map projRow = _
    rw [List.map_map]
    apply List.map_congr_left
    intro q _
    simp only [Function.comp_apply]
    by_cases hq : ((ds.rowsFor count0 lc ta ft now).map (fun r => r.did)).contains q.did
    · rw [if_pos hq]
      rfl
    · rw [if_neg hq]

theorem memSelect_TRI_of_proj_eq {ms1 ms2 : MemoryStore}
    (h : ms1.quorums.map projInfo = ms2.quorums.map projInfo)
    (count0 : Int) (lc : String) (ta : ℚ) (now : Timestamp) :
    (ms1.GetAvailableQuorums count0 lc ta "TRI" now).1
      = (ms2.GetAvailableQuorums count0 lc ta "TRI" now).1 := by
  have hfil : ∀ rb, ((ms1.quorums.filter (memPassesFilter now rb "TRI" lc)).map projInfo)
      = ((ms2.quorums.filter (memPassesFilter now rb "TRI" lc)).map projInfo) := by
    intro rb
    rw [← filter_map_comm projInfo (memPassesFilter now rb "TRI" lc) (fun q => rfl),
        ← filter_map_comm projInfo (memPassesFilter now rb "TRI" lc) (fun q => rfl), h]
  have hpool : ∀ rb, (ms1.quorums.filter (memPassesFilter now rb "TRI" lc)).length
      = (ms2.quorums.filter (memPassesFilter now rb "TRI" lc)).length := by
    intro rb
    rw [← List.length_map _ projInfo, hfil rb, List.length_map]
  have htri : ∀ a b : QuorumInfo, triLess (projInfo a) (projInfo b) = triLess a b :=
    fun _ _ => rfl
  have hcmp : (if (("TRI" : String) == "TRI") = true then triLess else loadLess) = triLess :=
    rfl
  have hchosen : (ms1.chosenFor count0 lc ta "TRI" now).map projInfo
      = (ms2.chosenFor count0 lc ta "TRI" now).map projInfo := by
    show ((sortBy _ _).take _).map projInfo = ((sortBy _ _).take _).map projInfo
    rw [List.map_take, List.map_take, hcmp,
        map_sortBy projInfo htri, map_sortBy projInfo htri, hfil]
  have haddr : ∀ l : List QuorumInfo,
      (l.map fun q : QuorumInfo => (⟨2, q.peerId ++ "." ++ q.did⟩ : QuorumData))
        = ((l.map projInfo).map fun q => ⟨2, q.peerId ++ "." ++ q.did⟩) := by
    intro l
    rw [List.map_map]
    exact List.map_congr_left fun q _ => rfl
  rw [memSelect_eq, memSelect_eq]
  have hlen : (ms1.selectionPool count0 lc ta "TRI" now).length
      = (ms2.selectionPool count0 lc ta "TRI" now).length := hpool _
  by_cases hc : (ms2.selectionPool count0 lc ta "TRI" now).length < (effCount count0).toNat
  · rw [if_pos (hlen ▸ hc), if_pos hc, hlen]
  · rw [if_neg (hlen ▸ hc), if_neg hc]
    show Except.ok _ = Except.ok _
    rw [haddr, hchosen]
    exact congrArg Except.ok (haddr _).symm

theorem dbSelect_TRI_of_proj_eq {ds1 ds2 : DBStore}
    (h : ds1.quorums.map projRow = ds2.quorums.map projRow)
    (count0 : Int) (lc : String) (ta : ℚ) (now : Timestamp) :
    (ds1.GetAvailableQuorums count0 lc ta "TRI" now).1
      = (ds2.GetAvailableQuorums count0 lc ta "TRI" now).1 := by
  have htri : ∀ a b : QuorumDB, dbTriLess (projRow a) (projRow b) = dbTriLess a b :=
    fun _ _ => rfl
  have hcmp : (if (("TRI" : String) == "TRI") = true then dbTriLess else dbLoadLess)
      = dbTriLess := rfl
  have hrows : (ds1.rowsFor count0 lc ta "TRI" now).map projRow
      = (ds2.rowsFor count0 lc ta "TRI" now).map projRow := by
    show ((sortBy _ _).take _).map projRow = ((sortBy _ _).take _).map projRow
    rw [List.map_take, List.map_take, hcmp,
        map_sortBy projRow htri, map_sortBy projRow htri,
        ← filter_map_comm projRow
          (dbPassesFilter now (ta / ((effCount count0 : Int) : ℚ)) "TRI" lc) (fun q => rfl),
        ← filter_map_comm projRow
          (dbPassesFilter now (ta / ((effCount count0 : Int) : ℚ)) "TRI" lc) (fun q => rfl), h]
  have hlen : (ds1.rowsFor count0 lc ta "TRI" now).length
      = (ds2.rowsFor count0 lc ta "TRI" now).length := by
    rw [← List.length_map _ projRow, hrows, List.length_map]
  have haddr : ∀ l : List QuorumDB,
      (l.map fun q : QuorumDB => (⟨2, q.peerId ++ "." ++ q.did⟩ : QuorumData))
        = ((l.map projRow).map fun q => ⟨2, q.peerId ++ "." ++ q.did⟩) := by
    intro l
    rw [List.map_map]
    exact List.map_congr_left fun q _ => rfl
  rw [dbSelect_eq, dbSelect_eq]
  by_cases hc : (ds2.rowsFor count0 lc ta "TRI" now).length < (effCount count0).toNat
  · rw [if_pos (hlen ▸ hc), if_pos hc, hlen]
  · rw [if_neg (hlen ▸ hc), if_neg hc]
    show Except.ok _ = Except.ok _
    rw [haddr, hrows]
    exact congrArg Except.ok (haddr _).symm

/-! ### Further supporting lemmas -/

theorem length_chosenFor (ms : MemoryStore) (count0 : Int) (lc : String) (ta : ℚ)
    (ft : String) (now : Timestamp)
    (h : ¬ (ms.selectionPool count0 lc ta ft now).length < (effCount count0).toNat) :
    (ms.chosenFor count0 lc ta ft now).length = (effCount count0).toNat := by
  show ((sortBy _ (ms.selectionPool count0 lc ta ft now)).take _).length = _
  rw [List.length_take, length_sortBy]
  exact Nat.min_eq_left (Nat.le_of_not_lt h)

theorem length_rowsFor_of_enough (ds : DBStore) (count0 : Int) (lc : String) (ta : ℚ)
    (ft : String) (now : Timestamp)
    (h : ¬ (ds.rowsFor count0 lc ta ft now).length < (effCount count0).toNat) :
    (ds.rowsFor count0 lc ta ft now).length = (effCount count0).toNat := by
  refine Nat.le_antisymm ?_ (Nat.le_of_not_lt h)
  show ((sortBy _ _).take _).length ≤ _
  rw [List.length_take]
  exact Nat.min_le_left _ _

theorem chosenFor_subset (ms : MemoryStore) (count0 : Int) (lc : String) (ta : ℚ)
    (ft : String) (now : Timestamp) {q : QuorumInfo}
    (h : q ∈ ms.chosenFor count0 lc ta ft now) :
    q ∈ ms.quorums ∧
      memPassesFilter now (ta / ((effCount count0 : Int) : ℚ)) ft lc q = true := by
  have h1 : q ∈ sortBy (if ft == "TRI" then triLess else loadLess)
      (ms.quorums.filter
        (memPassesFilter now (ta / ((effCount count0 : Int) : ℚ)) ft lc)) :=
    List.take_subset _ _ h
  have h2 := mem_sortBy.mp h1
  exact ⟨(List.mem_filter.mp h2).1, (List.mem_filter.mp h2).2⟩

theorem rowsFor_subset (ds : DBStore) (count0 : Int) (lc : String) (ta : ℚ)
    (ft : String) (now : Timestamp) {q : QuorumDB}
    (h : q ∈ ds.rowsFor count0 lc ta ft now) :
    q ∈ ds.quorums ∧
      dbPassesFilter now (ta / ((effCount count0 : Int) : ℚ)) ft lc q = true := by
  have h1 : q ∈ sortBy (if ft == "TRI" then dbTriLess else dbLoadLess)
      (ds.quorums.filter
        (dbPassesFilter now (ta / ((effCount count0 : Int) : ℚ)) ft lc)) :=
    List.take_subset _ _ h
  have h2 := mem_sortBy.mp h1
  exact ⟨(List.mem_filter.mp h2).1, (List.mem_filter.mp h2).2⟩

theorem balance_of_memPassesFilter {now : Timestamp} {rb : ℚ} {ft lc : String}
    {q : QuorumInfo} (h : memPassesFilter now rb ft lc q = true) : q.balance ≥ rb := by
  simp only [memPassesFilter, Bool.and_eq_true, decide_eq_true_eq] at h
  exact h.1.1.2

theorem balance_of_dbPassesFilter {now : Timestamp} {rb : ℚ} {ft lc : String}
    {q : QuorumDB} (h : dbPassesFilter now rb ft lc q = true) : q.balance ≥ rb := by
  simp only [dbPassesFilter, Bool.and_eq_true, decide_eq_true_eq] at h
  exact h.1.1.2

/-- A pattern starting with a quote character is not contained in a
string with no quote characters. -/
theorem charsContains_quoted_false (ft : String) :
    ∀ s : List Char, (∀ c ∈ s, (c == '"') = false) →
      charsContains ("\"" ++ ft ++ "\"").data s = false := by
  have hdata : ("\"" ++ ft ++ "\"").data = '"' :: (ft.data ++ ['"']) := by
    rw [String.data_append, String.data_append]
    rfl
  intro s hs
  induction s with
  | nil => rw [hdata]; rfl
  | cons c cs ih =>
      show (charsPrefixOf _ (c :: cs) || charsContains _ cs) = false
      rw [hdata]
      show (((('"' == c) && charsPrefixOf _ cs) : Bool) || _) = false
      have hc : ('"' == c) = false := by
        rw [Bool.beq_comm]
        exact hs c (by simp)
      rw [hc, Bool.false_and, Bool.false_or, ← hdata]
      exact ih (fun d hd => hs d (by simp [hd]))

/-- The durable token clause rejects the serialized empty token list
for every filter value. -/
theorem dbTokenClause_empty_false (ft : String) :
    dbTokenClause ft (serializeTokens []) = false := by
  have hser : serializeTokens [] = "[]" := rfl
  rw [hser]
  unfold dbTokenClause
  by_cases h1 : ft == ""
  · rw [if_pos h1]; rfl
  · rw [if_neg h1]
    by_cases h2 : ft == "TRI"
    · rw [if_pos h2]; rfl
    · rw [if_neg h2]
      have hquote : strLikeContains "[]" ("\"" ++ ft ++ "\"") = false :=
        charsContains_quoted_false ft "[]".data (by decide)
      rw [show strLikeContains "[]" ("\"" ++ ft ++ "\"") =
            charsContains ("\"" ++ ft ++ "\"").data "[]".data from rfl] at hquote
      show (charsContains ("\"" ++ ft ++ "\"").data "[]".data || ("[]" == "")) = false
      rw [hquote]
      rfl

/-- Likewise for the `"null"` serialization of a nil token slice. -/
theorem dbTokenClause_null_false (ft : String) :
    dbTokenClause ft "null" = false := by
  unfold dbTokenClause
  by_cases h1 : ft == ""
  · rw [if_pos h1]; rfl
  · rw [if_neg h1]
    by_cases h2 : ft == "TRI"
    · rw [if_pos h2]; rfl
    · rw [if_neg h2]
      have hquote : charsContains ("\"" ++ ft ++ "\"").data "null".data = false :=
        charsContains_quoted_false ft "null".data (by decide)
      show (charsContains ("\"" ++ ft ++ "\"").data "null".data || ("null" == "")) = false
      rw [hquote]
      rfl

/-! ### Claim theorems -/

/-- **C2**: selection is all-or-nothing in both backends: on
`InsufficientCandidates` the store (records, peer index, histories,
audit log) is exactly the pre-call store, and a successful call returns
exactly `count` items (after the default-to-7 correction of a
non-positive `count`). -/
theorem c2_select_all_or_nothing (ms : MemoryStore) (ds : DBStore) (count0 : Int)
    (lc : String) (ta : ℚ) (ft : String) (now : Timestamp) :
    ((∀ e, (ms.GetAvailableQuorums count0 lc ta ft now).1 = Except.error e →
        (ms.GetAvailableQuorums count0 lc ta ft now).2 = ms) ∧
     (∀ l, (ms.GetAvailableQuorums count0 lc ta ft now).1 = Except.ok l →
        l.length = (effCount count0).toNat)) ∧
    ((∀ e, (ds.GetAvailableQuorums count0 lc ta ft now).1 = Except.error e →
        (ds.GetAvailableQuorums count0 lc ta ft now).2 = ds) ∧
     (∀ l, (ds.GetAvailableQuorums count0 lc ta ft now).1 = Except.ok l →
        l.length = (effCount count0).toNat)) := by
  constructor
  · have key := memSelect_eq ms count0 lc ta ft now
    by_cases hc : (ms.selectionPool count0 lc ta ft now).length < (effCount count0).toNat
    · rw [if_pos hc] at key
      exact ⟨fun e _ => by rw [key], fun l hl => by rw [key] at hl; exact Except.noConfusion hl⟩
    · rw [if_neg hc] at key
      refine ⟨fun e he => by rw [key] at he; exact Except.noConfusion he, fun l hl => ?_⟩
      rw [key] at hl
      have hx := Except.ok.inj hl
      rw [← hx, List.length_map, length_chosenFor ms count0 lc ta ft now hc]
  · have key := dbSelect_eq ds count0 lc ta ft now
    by_cases hc : (ds.rowsFor count0 lc ta ft now).length < (effCount count0).toNat
    · rw [if_pos hc] at key
      exact ⟨fun e _ => by rw [key], fun l hl => by rw [key] at hl; exact Except.noConfusion hl⟩
    · rw [if_neg hc] at key
      refine ⟨fun e he => by rw [key] at he; exact Except.noConfusion he, fun l hl => ?_⟩
      rw [key] at hl
      have hx := Except.ok.inj hl
      rw [← hx, List.length_map, length_rowsFor_of_enough ds count0 lc ta ft now hc]

/-- Witness for C2 at the spec's 5-node example: the failing selection
leaves the store unchanged. -/
theorem c2_select_all_or_nothing_witness :
    (memEx5.GetAvailableQuorums 5 "" 100 "" 0).2 = memEx5 :=
  ((c2_select_all_or_nothing memEx5 dbEx5 5 "" 100 "" 0).1).1 ⟨4, 5, 20⟩
    (by with_unfolding_all decide)

/-- **C10**: every pair a successful selection returns carries the
constant type tag 2, in both backends, and the handler's parsed `type`
query parameter has no influence on the outcome. -/
theorem c10_type_tag_constant (ms : MemoryStore) (ds : DBStore) (count0 : Int)
    (lc : String) (ta : ℚ) (ft : String) (t1 t2 : Int) (now : Timestamp) :
    (∀ l, (ms.GetAvailableQuorums count0 lc ta ft now).1 = Except.ok l →
       ∀ d ∈ l, d.type = 2) ∧
    (∀ l, (ds.GetAvailableQuorums count0 lc ta ft now).1 = Except.ok l →
       ∀ d ∈ l, d.type = 2) ∧
    handleGetAvailableQuorums ds count0 ta lc ft t1 now
      = handleGetAvailableQuorums ds count0 ta lc ft t2 now := by
  refine ⟨?_, ?_, rfl⟩
  · intro l hl d hd
    have key := memSelect_eq ms count0 lc ta ft now
    by_cases hc : (ms.selectionPool count0 lc ta ft now).length < (effCount count0).toNat
    · rw [if_pos hc] at key
      rw [key] at hl
      exact Except.noConfusion hl
    · rw [if_neg hc] at key
      rw [key] at hl
      rw [← Except.ok.inj hl] at hd
      rcases List.mem_map.mp hd with ⟨q, _, rfl⟩
      rfl
  · intro l hl d hd
    have key := dbSelect_eq ds count0 lc ta ft now
    by_cases hc : (ds.rowsFor count0 lc ta ft now).length < (effCount count0).toNat
    · rw [if_pos hc] at key
      rw [key] at hl
      exact Except.noConfusion hl
    · rw [if_neg hc] at key
      rw [key] at hl
      rw [← Except.ok.inj hl] at hd
      rcases List.mem_map.mp hd with ⟨q, _, rfl⟩
      rfl

/-- Witness for C10: a successful concrete selection returns only
type-2 pairs. -/
theorem c10_type_tag_constant_witness :
    (2 : Int) = 2 ∧ (memTri3.GetAvailableQuorums 2 "" 10 "TRI" 0).1 =
      Except.ok [⟨2, "pa.a"⟩, ⟨2, "pb.b"⟩] :=
  ⟨(c10_type_tag_constant memTri3 dbTri3 2 "" 10 "TRI" 0 0 0).1
      [⟨2, "pa.a"⟩, ⟨2, "pb.b"⟩] (by with_unfolding_all decide) ⟨2, "pa.a"⟩ (by decide),
   by with_unfolding_all decide⟩

/-- **C8**: a record whose last ping is between 5 and 10 minutes old is
not live — it fails the liveness test used by selection and by the
health summary, so it passes no selection filter and is not counted
live — but it is not yet stale, so a sweeper run keeps it (unchanged)
in both backends. -/
theorem c8_dead_zone (now : Timestamp) (qm : QuorumInfo) (qd : QuorumDB)
    (ms : MemoryStore) (ds : DBStore) (rb : ℚ) (ft lc : String)
    (hm1 : livenessWindow ≤ now - qm.lastPing) (hm2 : now - qm.lastPing ≤ staleThreshold)
    (hd1 : livenessWindow ≤ now - qd.lastPing) (hd2 : now - qd.lastPing ≤ staleThreshold) :
    (memLive now qm = false ∧ memPassesFilter now rb ft lc qm = false ∧
     qm ∉ ms.quorums.filter (memLive now) ∧
     (ms.GetHealthStatus now).availableQuorums = (ms.quorums.filter (memLive now)).length ∧
     memStale now qm = false ∧
     (qm ∈ ms.quorums → qm ∈ (ms.CleanupStaleQuorums now).2.quorums)) ∧
    (dbLive now qd = false ∧ dbPassesFilter now rb ft lc qd = false ∧
     qd ∉ ds.quorums.filter (dbLive now) ∧
     (ds.GetHealthStatus now).availableQuorums = (ds.quorums.filter (dbLive now)).length ∧
     dbStale now qd = false ∧
     (qd ∈ ds.quorums → qd ∈ (ds.CleanupStaleQuorums now).2.quorums)) := by
  have hmlive : memLive now qm = false := by
    unfold memLive
    rw [decide_eq_false (not_lt.mpr hm1), Bool.and_false]
  have hmstale : memStale now qm = false := by
    unfold memStale
    exact decide_eq_false (not_lt.mpr hm2)
  have hdlive : dbLive now qd = false := by
    unfold dbLive
    have hx : ¬ qd.lastPing > now - livenessWindow := by
      unfold livenessWindow at hd1 ⊢
      linarith
    rw [decide_eq_false hx, Bool.and_false]
  have hdstale : dbStale now qd = false := by
    unfold dbStale
    have hx : ¬ qd.lastPing < now - staleThreshold := by
      unfold staleThreshold at hd2 ⊢
      linarith
    exact decide_eq_false hx
  refine ⟨⟨hmlive, ?_, ?_, rfl, hmstale, ?_⟩, ⟨hdlive, ?_, ?_, rfl, hdstale, ?_⟩⟩
  · unfold memPassesFilter
    rw [hmlive, Bool.false_and, Bool.false_and, Bool.false_and]
  · intro hmem
    exact absurd (List.mem_filter.mp hmem).2 (by rw [hmlive]; exact Bool.false_ne_true)
  · intro hq
    refine List.mem_filter.mpr ⟨hq, ?_⟩
    simp [hmstale]
  · unfold dbPassesFilter
    rw [hdlive, Bool.false_and, Bool.false_and, Bool.false_and]
  · intro hmem
    exact absurd (List.mem_filter.mp hmem).2 (by rw [hdlive]; exact Bool.false_ne_true)
  · intro hq
    have hself : (if dbStale now qd then { qd with available := false } else qd) = qd := by
      rw [if_neg (by rw [hdstale]; exact Bool.false_ne_true)]
    exact hself ▸ List.mem_map_of_mem _ hq

/-- Witness for C8 at a concrete 400-second-old ping. -/
theorem c8_dead_zone_witness :
    memLive 400 (mkQ "a" 10) = false ∧ memStale 400 (mkQ "a" 10) = false :=
  ⟨(c8_dead_zone 400 (mkQ "a" 10) (mkRow "a" 10 []) memOne dbEmpty 0 "" ""
      (by decide) (by decide) (by decide) (by decide)).1.1,
   (c8_dead_zone 400 (mkQ "a" 10) (mkRow "a" 10 []) memOne dbEmpty 0 "" ""
      (by decide) (by decide) (by decide) (by decide)).1.2.2.2.2.1⟩

/-- Updating every record matching a DID, viewed through `find?`:
helper covering the upsert branch of registration, heartbeat, and
availability confirmation in both backends. -/
theorem memRegister_findQuorum_some (ms : MemoryStore) (req : QuorumRegistrationRequest)
    (now : Timestamp) {q : QuorumInfo} (hq : ms.findQuorum req.did = some q) :
    (ms.RegisterQuorum req now).findQuorum req.did = some
      { q with peerId := req.peerId, balance := req.balance, didType := req.didType,
               lastPing := now, available := true,
               supportedTokens := req.supportedTokens } := by
  have hpq := List.find?_some hq
  unfold MemoryStore.RegisterQuorum
  rw [hq]
  have hres := find?_map_pres
    (fun r : QuorumInfo => if r.did == req.did then
      { r with peerId := req.peerId, balance := req.balance, didType := req.didType,
               lastPing := now, available := true,
               supportedTokens := req.supportedTokens } else r)
    (fun x => by by_cases hx : (x.did == req.did) = true <;> simp [hx]) hq
  exact hres.trans (congrArg some (if_pos hpq))

theorem memRegister_findQuorum_none (ms : MemoryStore) (req : QuorumRegistrationRequest)
    (now : Timestamp) (hq : ms.findQuorum req.did = none) :
    (ms.RegisterQuorum req now).findQuorum req.did = some
      { did := req.did, peerId := req.peerId, balance := req.balance,
        didType := req.didType, available := true, lastPing := now,
        assignmentCount := 0, lastAssignment := 0, registrationTime := now,
        supportedTokens := req.supportedTokens } := by
  unfold MemoryStore.RegisterQuorum
  rw [hq]
  show (ms.quorums ++ [_]).find? _ = _
  rw [find?_append_none hq]
  exact List.find?_cons_of_pos _ (by simp)

theorem dbRegister_findRow_some (ds : DBStore) (req : QuorumRegistrationRequest)
    (now : Timestamp) {r : QuorumDB} (hr : ds.findRow req.did = some r) :
    (ds.RegisterQuorum req now).findRow req.did = some
      { r with peerId := req.peerId, balance := req.balance, didType := req.didType,
               available := true, lastPing := now,
               supportedTokens := serializeTokens req.supportedTokens } := by
  have hpr := List.find?_some hr
  unfold DBStore.RegisterQuorum
  rw [hr]
  have hres := find?_map_pres
    (fun x : QuorumDB => if x.did == req.did then
      { x with peerId := req.peerId, balance := req.balance, didType := req.didType,
               available := true, lastPing := now,
               supportedTokens := serializeTokens req.supportedTokens } else x)
    (fun x => by by_cases hx : (x.did == req.did) = true <;> simp [hx]) hr
  exact hres.trans (congrArg some (if_pos hpr))

theorem dbRegister_findRow_none (ds : DBStore) (req : QuorumRegistrationRequest)
    (now : Timestamp) (hr : ds.findRow req.did = none) :
    (ds.RegisterQuorum req now).findRow req.did = some
      { did := req.did, peerId := req.peerId, balance := req.balance,
        didType := req.didType, available := true, lastPing := now,
        assignmentCount := 0, lastAssignment := 0, registrationTime := now,
        supportedTokens := serializeTokens req.supportedTokens } := by
  unfold DBStore.RegisterQuorum
  rw [hr]
  show (ds.quorums ++ [_]).find? _ = _
  rw [find?_append_none hr]
  exact List.find?_cons_of_pos _ (by simp)

/-- **C9**: registering an existing identifier updates exactly the
mutable fields (peer handle, balance, type, token set, forcing
`available = true` and refreshing `last_ping`) while keeping
`assignment_count`, `last_assignment` and `registration_time` from the
stored record; a first registration sets `registration_time = now` and
starts `assignment_count` at 0.  Both backends. -/
theorem c9_register_frame (ms : MemoryStore) (ds : DBStore)
    (req : QuorumRegistrationRequest) (now : Timestamp) :
    (∀ q, ms.findQuorum req.did = some q →
       (ms.RegisterQuorum req now).findQuorum req.did = some
         { q with peerId := req.peerId, balance := req.balance, didType := req.didType,
                  lastPing := now, available := true,
                  supportedTokens := req.supportedTokens }) ∧
    (ms.findQuorum req.did = none →
       (ms.RegisterQuorum req now).findQuorum req.did = some
         { did := req.did, peerId := req.peerId, balance := req.balance,
           didType := req.didType, available := true, lastPing := now,
           assignmentCount := 0, lastAssignment := 0, registrationTime := now,
           supportedTokens := req.supportedTokens }) ∧
    (∀ r, ds.findRow req.did = some r →
       (ds.RegisterQuorum req now).findRow req.did = some
         { r with peerId := req.peerId, balance := req.balance, didType := req.didType,
                  available := true, lastPing := now,
                  supportedTokens := serializeTokens req.supportedTokens }) ∧
    (ds.findRow req.did = none →
       (ds.RegisterQuorum req now).findRow req.did = some
         { did := req.did, peerId := req.peerId, balance := req.balance,
           didType := req.didType, available := true, lastPing := now,
           assignmentCount := 0, lastAssignment := 0, registrationTime := now,
           supportedTokens := serializeTokens req.supportedTokens }) :=
  ⟨fun _ hq => memRegister_findQuorum_some ms req now hq,
   fun hq => memRegister_findQuorum_none ms req now hq,
   fun _ hr => dbRegister_findRow_some ds req now hr,
   fun hr => dbRegister_findRow_none ds req now hr⟩

/-- Witness for C9: re-registering the one stored node updates the
mutable fields and keeps its registration metadata. -/
theorem c9_register_frame_witness :
    (memOne.RegisterQuorum ⟨"a", "p2", 25, 1, ["RBT"]⟩ 50).findQuorum "a" =
      some { did := "a", peerId := "p2", balance := 25, didType := 1, available := true,
             lastPing := 50, assignmentCount := 0, lastAssignment := 0,
             registrationTime := 0, supportedTokens := ["RBT"] } :=
  (c9_register_frame memOne dbEmpty ⟨"a", "p2", 25, 1, ["RBT"]⟩ 50).1 (mkQ "a" 10)
    (by with_unfolding_all decide)

theorem memHeartbeat_some (ms : MemoryStore) (did : String) (now : Timestamp)
    {q : QuorumInfo} (hq : ms.findQuorum did = some q) :
    ∃ ms9, ms.UpdateHeartbeat did now = some ms9 ∧
      ms9.findQuorum did = some { q with lastPing := now } ∧
      ms9.peerIndex = ms.peerIndex := by
  have hpq := List.find?_some hq
  unfold MemoryStore.UpdateHeartbeat
  rw [hq]
  refine ⟨_, rfl, ?_, rfl⟩
  have hres := find?_map_pres
    (fun r : QuorumInfo => if r.did == did then { r with lastPing := now } else r)
    (fun x => by by_cases hx : (x.did == did) = true <;> simp [hx]) hq
  exact hres.trans (congrArg some (if_pos hpq))

theorem dbHeartbeat_findRow_some (ds : DBStore) (did : String) (now : Timestamp)
    {r : QuorumDB} (hr : ds.findRow did = some r) :
    (ds.UpdateHeartbeat did now).findRow did = some { r with lastPing := now } := by
  have hpr := List.find?_some hr
  have hres := find?_map_pres
    (fun x : QuorumDB => if x.did == did then { x with lastPing := now } else x)
    (fun x => by by_cases hx : (x.did == did) = true <;> simp [hx]) hr
  exact hres.trans (congrArg some (if_pos hpr))

/-- **C4 as amended**: in the volatile backend `UpdateHeartbeat` fails
exactly on identifiers absent from the registry and otherwise refreshes
`last_ping` only; in the durable backend the bare SQL `UPDATE` cannot
report a missing row, so an absent identifier yields success with the
store unchanged, and a present one refreshes `last_ping` only. -/
theorem c4_heartbeat_amended (ms : MemoryStore) (ds : DBStore) (did : String)
    (now : Timestamp) :
    (ms.UpdateHeartbeat did now = none ↔ ms.findQuorum did = none) ∧
    (∀ q, ms.findQuorum did = some q → ∃ ms9, ms.UpdateHeartbeat did now = some ms9 ∧
        ms9.findQuorum did = some { q with lastPing := now } ∧
        ms9.peerIndex = ms.peerIndex) ∧
    (ds.findRow did = none → ds.UpdateHeartbeat did now = ds) ∧
    (∀ r, ds.findRow did = some r →
        (ds.UpdateHeartbeat did now).findRow did = some { r with lastPing := now } ∧
        (ds.UpdateHeartbeat did now).balanceHistory = ds.balanceHistory ∧
        (ds.UpdateHeartbeat did now).txHistory = ds.txHistory) := by
  refine ⟨?_, fun _ hq => memHeartbeat_some ms did now hq, ?_,
    fun _ hr => ⟨dbHeartbeat_findRow_some ds did now hr, rfl, rfl⟩⟩
  · cases hcase : ms.findQuorum did with
    | none => simp [MemoryStore.UpdateHeartbeat, hcase]
    | some q => simp [MemoryStore.UpdateHeartbeat, hcase]
  · intro h
    unfold DBStore.UpdateHeartbeat
    have hid : ds.quorums.map
        (fun q : QuorumDB => if q.did == did then { q with lastPing := now } else q)
        = ds.quorums :=
      map_eq_self (fun x hx => if_neg (List.find?_eq_none.mp h x hx))
    rw [hid]

/-- Counterexample to C4 as claimed: in the durable backend, a
heartbeat for a well-formed identifier that was never registered is
answered with success (HTTP 200, `Heartbeat updated`), not NotFound. -/
theorem c4_counterexample :
    handleHeartbeat dbEmpty exDID 5 = (ApiStatus.ok, dbEmpty) ∧
    ApiStatus.ok ≠ ApiStatus.notFound := by
  with_unfolding_all decide

/-- Witness for C4 (amended): heartbeating the one stored volatile
record refreshes only its ping. -/
theorem c4_heartbeat_amended_witness :
    ∃ ms9, memOne.UpdateHeartbeat "a" 77 = some ms9 ∧
      ms9.findQuorum "a" =
        some { did := "a", peerId := "pa", balance := 10, didType := 0,
               available := true, lastPing := 77, assignmentCount := 0,
               lastAssignment := 0, registrationTime := 0, supportedTokens := [] } ∧
      ms9.peerIndex = memOne.peerIndex :=
  (c4_heartbeat_amended memOne dbEmpty "a" 77).2.1 (mkQ "a" 10)
    (by with_unfolding_all decide)

/-- Counterexample to C5 as claimed: the register handler performs no
balance validation, so a request with balance −5 is accepted and the
negative balance is stored. -/
theorem c5_counterexample :
    (handleRegisterQuorum dbEmpty regNeg 0).1 = ApiStatus.ok ∧
    (handleRegisterQuorum dbEmpty regNeg 0).2.GetQuorumByDID exDID =
      some { did := exDID, peerId := "peer1", balance := -5, didType := 0,
             available := true, lastPing := 0, assignmentCount := 0, lastAssignment := 0,
             registrationTime := 0, supportedTokens := serializeTokens [] } ∧
    ((-5 : ℚ) < 0) := by
  with_unfolding_all decide

/-- **C5 as amended**: `UpdateBalance` rejects a negative balance as
invalid input before touching state, but `Register` does not validate
the balance at all: any well-formed registration (valid DID, type in
0..4) succeeds and stores the request balance verbatim, negative or
not. -/
theorem c5_balance_validation_amended (ds : DBStore) (did : String) (b : ℚ)
    (req : QuorumRegistrationRequest) (now : Timestamp) :
    (b < 0 → handleUpdateQuorumBalance ds did b now = (ApiStatus.badRequest, ds)) ∧
    (isValidDID req.did = true → 0 ≤ req.didType → req.didType ≤ 4 →
      (handleRegisterQuorum ds req now).1 = ApiStatus.ok ∧
      (((handleRegisterQuorum ds req now).2.GetQuorumByDID req.did).map fun q => q.balance)
        = some req.balance) := by
  constructor
  · intro hb
    unfold handleUpdateQuorumBalance
    by_cases hv : isValidDID did = true
    · rw [if_neg (fun hn => hn hv), if_pos hb]
    · rw [if_pos hv]
  · intro hvalid h0 h4
    unfold handleRegisterQuorum
    rw [if_neg (fun hn => hn hvalid),
        if_neg (by push_neg; exact ⟨h0, h4⟩)]
    refine ⟨rfl, ?_⟩
    cases hrow : ds.findRow req.did with
    | some r =>
        show ((ds.RegisterQuorum req now).findRow req.did).map _ = _
        rw [dbRegister_findRow_some ds req now hrow]
        rfl
    | none =>
        show ((ds.RegisterQuorum req now).findRow req.did).map _ = _
        rw [dbRegister_findRow_none ds req now hrow]
        rfl

/-- Witness for C5 (amended): a negative balance update is rejected
with no state change. -/
theorem c5_balance_validation_amended_witness :
    handleUpdateQuorumBalance dbEmpty exDID (-1) 0 = (ApiStatus.badRequest, dbEmpty) :=
  (c5_balance_validation_amended dbEmpty exDID (-1) regNeg 0).1 (by norm_num)

/-- Counterexample to C1 as claimed: the VOLATILE sweeper deletes a
stale record outright — after one run on a store whose only record last
pinged 601 seconds ago, the record is gone and no longer retrievable,
and the run reports 1 as its count. -/
theorem c1_counterexample :
    (memOne.CleanupStaleQuorums 601).1 = 1 ∧
    (memOne.CleanupStaleQuorums 601).2.GetQuorumByDID "a" = none ∧
    (memOne.CleanupStaleQuorums 601).2.quorums = [] := by
  with_unfolding_all decide

/-- **C1 as amended**: a sweeper run in the DURABLE backend never
removes records — every row stays retrievable, with `available` forced
to false exactly on the stale rows and every other field kept — whereas
the VOLATILE backend's `CleanupStaleQuorums` deletes each stale record
(and keeps non-stale records untouched). -/
theorem c1_sweeper_amended (ms : MemoryStore) (ds : DBStore) (now : Timestamp)
    (did : String) (r : QuorumDB) (q : QuorumInfo) :
    ((ds.CleanupStaleQuorums now).2.quorums.length = ds.quorums.length) ∧
    ((ds.CleanupStaleQuorums now).1 = (ds.quorums.filter (dbStale now)).length) ∧
    (ds.GetQuorumByDID did = some r →
      (ds.CleanupStaleQuorums now).2.GetQuorumByDID did =
        some (if dbStale now r then { r with available := false } else r)) ∧
    (q ∈ ms.quorums → memStale now q = true →
      q ∉ (ms.CleanupStaleQuorums now).2.quorums) ∧
    (q ∈ ms.quorums → memStale now q = false →
      q ∈ (ms.CleanupStaleQuorums now).2.quorums) := by
  refine ⟨List.length_map _ _, rfl, ?_, ?_, ?_⟩
  · intro hr
    exact find?_map_pres
      (fun x : QuorumDB => if dbStale now x then { x with available := false } else x)
      (fun x => by by_cases hx : dbStale now x = true <;> simp [hx]) hr
  · intro _ hstale hmem
    have := (List.mem_filter.mp hmem).2
    simp [hstale] at this
  · intro hq hstale
    exact List.mem_filter.mpr ⟨hq, by simp [hstale]⟩

/-- Witness for C1 (amended): in the durable backend the stale record
survives the sweep, demoted to unavailable. -/
theorem c1_sweeper_amended_witness :
    (dbEmptyTok.CleanupStaleQuorums 601).2.GetQuorumByDID "a" =
      some (if dbStale 601 (mkRow "a" 100 []) then
        { mkRow "a" 100 [] with available := false } else mkRow "a" 100 []) :=
  (c1_sweeper_amended memOne dbEmptyTok 601 "a" (mkRow "a" 100 []) (mkQ "a" 10)).2.2.1
    (by with_unfolding_all decide)

/-- Counterexample to C3 as claimed: the two backends do NOT treat an
empty `supported_tokens` set identically.  The durable store holding
one live, well-funded record registered with an empty token list fails
a selection with an EMPTY token filter, finding 0 candidates, because
the serialized empty list (`"[]"`, or `"null"` for a nil slice)
matches neither `LIKE '%"RBT"%'` nor `supported_tokens = ''`. -/
theorem c3_counterexample :
    supportsToken [] "" = true ∧
    (dbEmptyTok.GetAvailableQuorums 1 "" 1 "" 0).1 = Except.error ⟨0, 1, 1⟩ ∧
    dbTokenClause "" (serializeTokens []) = false := by
  with_unfolding_all decide

/-- **C3 as amended**: in the volatile backend a record with an empty
declared token set passes the token filter exactly when the filter is
empty or names the base token `RBT`; in the durable backend such a
record is excluded for EVERY filter value (including the empty filter
and `RBT`), because the stored serialization `"[]"` (or `"null"`)
satisfies none of the SQL token clauses. -/
theorem c3_empty_tokens_amended (ft : String) (now : Timestamp) (rb : ℚ)
    (q : QuorumInfo) :
    (supportsToken [] ft = (ft == "" || ft == "RBT")) ∧
    (q.supportedTokens = [] → memLive now q = true → q.balance ≥ rb →
      (memPassesFilter now rb ft "" q = true ↔ (ft = "" ∨ ft = "RBT"))) ∧
    (dbTokenClause ft (serializeTokens []) = false) ∧
    (dbTokenClause ft "null" = false) := by
  refine ⟨rfl, ?_, dbTokenClause_empty_false ft, dbTokenClause_null_false ft⟩
  intro he hlive hbal
  simp [memPassesFilter, he, hlive, supportsToken, hbal]

/-- Witness for C3 (amended): an empty-token record that is live and
funded passes the volatile filter under the `RBT` filter. -/
theorem c3_empty_tokens_amended_witness :
    memPassesFilter 0 0 "RBT" "" (mkQ "a" 10) = true :=
  ((c3_empty_tokens_amended "RBT" 0 0 (mkQ "a" 10)).2.1 rfl (by decide)
      (by norm_num [mkQ])).mpr (Or.inr rfl)

/-- **C7**: both backends compute `requiredBalance = amount / count`
(with `count` defaulted to 7 when not positive) and report it, together
with `needed = count`, in the `InsufficientCandidates` error; every
address a successful selection returns belongs to a stored record whose
balance was at least `requiredBalance`; and the spec's 5-node example
(balances 10..50, count 5, amount 100) fails with found 4, needed 5,
required balance 20 in both backends. -/
theorem c7_required_balance (ms : MemoryStore) (ds : DBStore) (count0 : Int)
    (lc : String) (ta : ℚ) (ft : String) (now : Timestamp) :
    (∀ e, (ms.GetAvailableQuorums count0 lc ta ft now).1 = Except.error e →
       e.requiredBalance = ta / ((effCount count0 : Int) : ℚ) ∧
       e.needed = (effCount count0).toNat) ∧
    (∀ l, (ms.GetAvailableQuorums count0 lc ta ft now).1 = Except.ok l →
       ∀ d ∈ l, ∃ q, q ∈ ms.quorums ∧
         q.balance ≥ ta / ((effCount count0 : Int) : ℚ) ∧
         d.address = q.peerId ++ "." ++ q.did) ∧
    (∀ e, (ds.GetAvailableQuorums count0 lc ta ft now).1 = Except.error e →
       e.requiredBalance = ta / ((effCount count0 : Int) : ℚ) ∧
       e.needed = (effCount count0).toNat) ∧
    (∀ l, (ds.GetAvailableQuorums count0 lc ta ft now).1 = Except.ok l →
       ∀ d ∈ l, ∃ r, r ∈ ds.quorums ∧
         r.balance ≥ ta / ((effCount count0 : Int) : ℚ) ∧
         d.address = r.peerId ++ "." ++ r.did) ∧
    ((memEx5.GetAvailableQuorums 5 "" 100 "" 0).1 = Except.error ⟨4, 5, 20⟩) ∧
    ((dbEx5.GetAvailableQuorums 5 "" 100 "" 0).1 = Except.error ⟨4, 5, 20⟩) := by
  refine ⟨?_, ?_, ?_, ?_, by with_unfolding_all decide, by with_unfolding_all decide⟩
  · intro e he
    have key := memSelect_eq ms count0 lc ta ft now
    by_cases hc : (ms.selectionPool count0 lc ta ft now).length < (effCount count0).toNat
    · rw [if_pos hc] at key
      rw [key] at he
      rw [← Except.error.inj he]
      exact ⟨rfl, rfl⟩
    · rw [if_neg hc] at key
      rw [key] at he
      exact Except.noConfusion he
  · intro l hl d hd
    have key := memSelect_eq ms count0 lc ta ft now
    by_cases hc : (ms.selectionPool count0 lc ta ft now).length < (effCount count0).toNat
    · rw [if_pos hc] at key
      rw [key] at hl
      exact Except.noConfusion hl
    · rw [if_neg hc] at key
      rw [key] at hl
      rw [← Except.ok.inj hl] at hd
      rcases List.mem_map.mp hd with ⟨q, hq, rfl⟩
      rcases chosenFor_subset ms count0 lc ta ft now hq with ⟨hmemq, hpass⟩
      exact ⟨q, hmemq, balance_of_memPassesFilter hpass, rfl⟩
  · intro e he
    have key := dbSelect_eq ds count0 lc ta ft now
    by_cases hc : (ds.rowsFor count0 lc ta ft now).length < (effCount count0).toNat
    · rw [if_pos hc] at key
      rw [key] at he
      rw [← Except.error.inj he]
      exact ⟨rfl, rfl⟩
    · rw [if_neg hc] at key
      rw [key] at he
      exact Except.noConfusion he
  · intro l hl d hd
    have key := dbSelect_eq ds count0 lc ta ft now
    by_cases hc : (ds.rowsFor count0 lc ta ft now).length < (effCount count0).toNat
    · rw [if_pos hc] at key
      rw [key] at hl
      exact Except.noConfusion hl
    · rw [if_neg hc] at key
      rw [key] at hl
      rw [← Except.ok.inj hl] at hd
      rcases List.mem_map.mp hd with ⟨r, hr, rfl⟩
      rcases rowsFor_subset ds count0 lc ta ft now hr with ⟨hmemr, hpass⟩
      exact ⟨r, hmemr, balance_of_dbPassesFilter hpass, rfl⟩

/-- Witness for C7 at the spec example's error payload. -/
theorem c7_required_balance_witness :
    (⟨4, 5, 20⟩ : InsufficientCandidates).requiredBalance =
      100 / ((effCount 5 : Int) : ℚ) ∧
    (⟨4, 5, 20⟩ : InsufficientCandidates).needed = (effCount 5).toNat :=
  (c7_required_balance memEx5 dbEx5 5 "" 100 "" 0).1 ⟨4, 5, 20⟩
    (by with_unfolding_all decide)

/-- **C6**: with the consistency-critical token filter `TRI`, both
backends ignore `lastCharFilter` entirely, order the chosen candidates
by identifier ascending, and — because a successful selection only
mutates assignment metadata, which neither the `TRI` filter nor the
`TRI` ordering reads — an immediately repeated call over the unchanged
candidate set returns the identical ordered list. -/
theorem c6_tri_deterministic (ms : MemoryStore) (ds : DBStore) (count0 : Int)
    (lc lc9 : String) (ta : ℚ) (now : Timestamp) :
    (ms.GetAvailableQuorums count0 lc ta "TRI" now
       = ms.GetAvailableQuorums count0 lc9 ta "TRI" now) ∧
    (ds.GetAvailableQuorums count0 lc ta "TRI" now
       = ds.GetAvailableQuorums count0 lc9 ta "TRI" now) ∧
    List.Chain' (fun a b => a.did ≤ b.did) (ms.chosenFor count0 lc ta "TRI" now) ∧
    List.Chain' (fun a b => a.did ≤ b.did) (ds.rowsFor count0 lc ta "TRI" now) ∧
    (((ms.GetAvailableQuorums count0 lc ta "TRI" now).2.GetAvailableQuorums
        count0 lc ta "TRI" now).1 = (ms.GetAvailableQuorums count0 lc ta "TRI" now).1) ∧
    (((ds.GetAvailableQuorums count0 lc ta "TRI" now).2.GetAvailableQuorums
        count0 lc ta "TRI" now).1 = (ds.GetAvailableQuorums count0 lc ta "TRI" now).1) := by
  have hbne : ((("TRI" : String) != "TRI")) = false := rfl
  have hmempred : ∀ rb : ℚ,
      memPassesFilter now rb "TRI" lc = memPassesFilter now rb "TRI" lc9 := by
    intro rb
    funext q
    unfold memPassesFilter
    rw [if_neg (by rw [hbne, Bool.and_false]; exact Bool.false_ne_true),
        if_neg (by rw [hbne, Bool.and_false]; exact Bool.false_ne_true)]
  have hdbpred : ∀ rb : ℚ,
      dbPassesFilter now rb "TRI" lc = dbPassesFilter now rb "TRI" lc9 := by
    intro rb
    funext q
    unfold dbPassesFilter
    rw [if_neg (by rw [hbne, Bool.and_false]; exact Bool.false_ne_true),
        if_neg (by rw [hbne, Bool.and_false]; exact Bool.false_ne_true)]
  have hcmpm : (if (("TRI" : String) == "TRI") = true then triLess else loadLess)
      = triLess := rfl
  have hcmpd : (if (("TRI" : String) == "TRI") = true then dbTriLess else dbLoadLess)
      = dbTriLess := rfl
  refine ⟨?_, ?_, ?_, ?_, ?_, ?_⟩
  · rw [memSelect_eq, memSelect_eq]
    have hpool : ms.selectionPool count0 lc ta "TRI" now
        = ms.selectionPool count0 lc9 ta "TRI" now := by
      show ms.quorums.filter _ = ms.quorums.filter _
      rw [hmempred]
    have hch : ms.chosenFor count0 lc ta "TRI" now
        = ms.chosenFor count0 lc9 ta "TRI" now := by
      show (sortBy _ (ms.quorums.filter _)).take _ = (sortBy _ (ms.quorums.filter _)).take _
      rw [hmempred]
    rw [hpool, hch]
  · rw [dbSelect_eq, dbSelect_eq]
    have hrows : ds.rowsFor count0 lc ta "TRI" now
        = ds.rowsFor count0 lc9 ta "TRI" now := by
      show (sortBy _ (ds.quorums.filter _)).take _ = (sortBy _ (ds.quorums.filter _)).take _
      rw [hdbpred]
    rw [hrows]
  · have hasym : ∀ a b : QuorumInfo, triLess a b = true → triLess b a = false := by
      intro a b h
      exact decide_eq_false (lt_asymm (of_decide_eq_true h))
    have hchain : List.Chain' (fun a b => triLess b a = false)
        (ms.chosenFor count0 lc ta "TRI" now) := by
      show List.Chain' _ ((sortBy _ (ms.quorums.filter _)).take _)
      rw [hcmpm]
      exact (chain_sortBy hasym _).take _
    exact hchain.imp (fun a b h => not_lt.mp (of_decide_eq_false h))
  · have hasym : ∀ a b : QuorumDB, dbTriLess a b = true → dbTriLess b a = false := by
      intro a b h
      exact decide_eq_false (lt_asymm (of_decide_eq_true h))
    have hchain : List.Chain' (fun a b => dbTriLess b a = false)
        (ds.rowsFor count0 lc ta "TRI" now) := by
      show List.Chain' _ ((sortBy _ (ds.quorums.filter _)).take _)
      rw [hcmpd]
      exact (chain_sortBy hasym _).take _
    exact hchain.imp (fun a b h => not_lt.mp (of_decide_eq_false h))
  · exact memSelect_TRI_of_proj_eq
      (memSelect_proj_preserved ms count0 lc ta "TRI" now) count0 lc ta now
  · exact dbSelect_TRI_of_proj_eq
      (dbSelect_proj_preserved ds count0 lc ta "TRI" now) count0 lc ta now

end AdvisoryNode
